import Mathlib

/-!
Shallow embedding of the MTM valuation engine (`trading_case/mtm_calculator.py`)
and of the weekly-comparison branch of the weather question module
(`weather_case/weather_analysis.py`), together with theorems checking the
specification's claims against these definitions.

Modelling conventions:
* Calendar dates are encoded as natural numbers `yyyymmdd`; only order and
  maxima of dates are used by the code, and this encoding preserves both.
* A numeric spreadsheet cell is `Option ℚ`: `none` stands for pandas `NaN`
  (the result of `pd.to_numeric(..., errors="coerce")` on a bad cell), and
  arithmetic on `NaN` is modelled by `Option.bind`/`Option.map` propagation.
* A string cell is a `String`; `astype(str)` turns a missing cell into the
  literal string "nan", so string columns are total.
* Whether an optional column is present in the Contracts sheet is a table-wide
  fact, modelled by Boolean flags on `ContractsTable` (mirroring
  `df.get(col) is None` checks in the source).
-/

/-- Characters of a string with leading and trailing whitespace removed. -/
def trimChars (l : List Char) : List Char :=
  ((l.dropWhile Char.isWhitespace).reverse.dropWhile Char.isWhitespace).reverse

/-- Executable embedding of Python `str.strip()` / pandas `.str.strip()`
(kernel-computable, unlike `String.trim` which recurses on byte positions). -/
def strTrim (s : String) : String :=
  ⟨trimChars s.data⟩

/-- Executable embedding of Python `str.upper()` (ASCII). -/
def strUpper (s : String) : String :=
  ⟨s.data.map Char.toUpper⟩

/-- Executable embedding of Python `str.casefold()` (ASCII lower-casing). -/
def strLower (s : String) : String :=
  ⟨s.data.map Char.toLower⟩

/-- A row of the Price sheet after reading: date, index name, tenor, price. -/
structure PriceRow where
  date : Nat
  indexName : String
  tenor : String
  price : Option ℚ
  deriving Repr, DecidableEq

/-- Embedding of `_normalise_price_df` acting on one row: the date is already
a date, the key columns are whitespace-trimmed, the price column is numeric
(`Option ℚ` models `to_numeric(..., errors="coerce")`). -/
def normalisePriceRow (r : PriceRow) : PriceRow :=
  { r with indexName := strTrim r.indexName, tenor := strTrim r.tenor }

/-- A row of the Contracts sheet. String cells are total (`astype(str)`);
numeric cells are `Option ℚ`. -/
structure ContractRow where
  contractId : String
  indexName : String
  tenor : String
  typicalFe : Option ℚ
  feAdjFlag : String
  cost : Option ℚ
  discount : Option ℚ
  quantity : Option ℚ
  unit : String
  moisture : Option ℚ
  deriving Repr, DecidableEq

/-- The Contracts sheet: rows plus table-wide presence flags for the columns
the source accesses through `df.get(...)` (absent column versus present
column with null cells are different situations in the code). -/
structure ContractsTable where
  rows : List ContractRow
  hasTypicalFe : Bool
  hasFeAdjFlag : Bool
  hasCost : Bool
  hasDiscount : Bool
  hasQuantity : Bool
  hasUnit : Bool
  hasMoisture : Bool
  deriving Repr, DecidableEq

/-- Embedding of `_normalise_contracts_df` on one row: trim the join-key
columns; upper-case and trim the unit column when present; trim the
Fe Adj Flag column when present. Numeric columns are already `Option ℚ`. -/
def normaliseContractRow (t : ContractsTable) (r : ContractRow) : ContractRow :=
  { r with
    indexName := strTrim r.indexName
    tenor := strTrim r.tenor
    unit := if t.hasUnit then strTrim (strUpper r.unit) else r.unit
    feAdjFlag := if t.hasFeAdjFlag then strTrim r.feAdjFlag else r.feAdjFlag }

/-- Embedding of `_normalise_contracts_df` on the whole table. -/
def normaliseContracts (t : ContractsTable) : ContractsTable :=
  { t with rows := t.rows.map (normaliseContractRow t) }

/-- The comparison `price_date <= valuation_date` where the valuation date may
be `NaT` (`none`); in pandas a comparison with `NaT` is `False`. -/
def dateLeCutoff (d : Nat) : Option Nat → Bool
  | none => false
  | some c => d ≤ c

/-- The join-key test of `_lookup_base_price_for_contracts`: exact string
equality on (index name, tenor). -/
def matchesKey (key : String × String) (p : PriceRow) : Bool :=
  p.indexName == key.1 && p.tenor == key.2

/-- One step of selecting the latest-dated row. Scanning a list left to right
with this accumulator returns the last row attaining the maximal date, which
is exactly what the source's stable `sort_values(..., date)` followed by
`groupby(...).tail(1)` produces for one group. -/
def pickLatest (acc : Option PriceRow) (p : PriceRow) : Option PriceRow :=
  match acc with
  | none => some p
  | some q => if q.date ≤ p.date then some p else some q

/-- Embedding of the per-key content of `_lookup_base_price_for_contracts`:
restrict to price rows dated on or before the valuation date whose key equals
the contract key, and keep the latest (ties: last in input order). -/
def latestPriceRecord (prices : List PriceRow) (cutoff : Option Nat)
    (key : String × String) : Option PriceRow :=
  (prices.filter (fun p => dateLeCutoff p.date cutoff && matchesKey key p)).foldl
    pickLatest none

/-- The resolved base index price for one contract key: the price cell of the
latest matching record (itself possibly null), or null when no record matches.
`reindex` on a missing key yields `NaN`, modelled by `none`. -/
def basePriceFor (prices : List PriceRow) (cutoff : Option Nat)
    (key : String × String) : Option ℚ :=
  (latestPriceRecord prices cutoff key).bind (fun p => p.price)

/-- Embedding of `_compute_fe_adjustment_ratio` on one row. The flag test is
`flag.astype(str).str.upper().eq("NOADJ")` (the flag column was trimmed during
normalisation); the ratio is `Typical Fe / 62` with nulls falling back to 1.0,
and stays 1.0 when the Typical Fe column is absent; the NOADJ mask overrides. -/
def feAdjustmentRatio (hasFlag hasFe : Bool) (flag : String)
    (typicalFe : Option ℚ) : ℚ :=
  if hasFlag && (strUpper flag == "NOADJ") then 1
  else if hasFe then
    match typicalFe with
    | some fe => fe / 62
    | none => 1
  else 1

/-- Embedding of `_compute_quantity_dmt` on one row. Quantity column absent
gives an empty (all-null) series; unit column absent returns the raw quantity;
otherwise rows whose upper-cased trimmed unit is "WMT" are converted with
`quantity * (1 - moisture)` (moisture nulls filled with 0) provided the
moisture column is present, and all other rows keep the raw quantity. -/
def quantityDmt (hasQty hasUnit hasMoisture : Bool) (qty : Option ℚ)
    (unit : String) (moisture : Option ℚ) : Option ℚ :=
  if hasQty then
    if hasUnit then
      if hasMoisture then
        if strTrim (strUpper unit) == "WMT" then
          qty.map (fun x => x * (1 - moisture.getD 0))
        else qty
      else qty
    else qty
  else none

/-- The effective cost used by `compute_mtm_for_date`: the Cost column with
nulls filled by 0.0, or the constant 0.0 series when the column is absent. -/
def effCost (hasCost : Bool) (cost : Option ℚ) : ℚ :=
  if hasCost then cost.getD 0 else 0

/-- The effective discount used by `compute_mtm_for_date`: the Discount column
with nulls filled by 1.0, or the constant 1.0 series when the column is absent. -/
def effDiscount (hasDiscount : Bool) (discount : Option ℚ) : ℚ :=
  if hasDiscount then discount.getD 1 else 1

/-- The MTM formula `(base * ratio + cost) * discount * qty` with pandas `NaN`
propagation: the result is null exactly when the base price or the quantity is
null (the ratio, cost and discount are never null after their fills). -/
def mtmValueOf (base : Option ℚ) (ratio cost discount : ℚ)
    (qty : Option ℚ) : Option ℚ :=
  base.bind (fun b => qty.map (fun q => (b * ratio + cost) * discount * q))

/-- One output row of `compute_mtm_for_date`: the (normalised) contract row
plus the four derived columns and the stamped valuation date (which is `NaT`,
i.e. `none`, when the date could not be inferred). -/
structure OutRow where
  contract : ContractRow
  basePrice : Option ℚ
  feRatio : ℚ
  qtyDmt : Option ℚ
  mtmValue : Option ℚ
  valuationDate : Option Nat
  deriving Repr, DecidableEq

/-- The maximum of the Price Date column, `none` (pandas `NaT`) on an empty
table. -/
def maxPriceDate (prices : List PriceRow) : Option Nat :=
  prices.foldl
    (fun acc p =>
      match acc with
      | none => some p.date
      | some d => some (max d p.date)) none

/-- The valuation date actually used: the supplied one, else the maximum price
date (which is `NaT` when the price table is empty — the source has no guard
for that case). -/
def cutoffFor (prices : List PriceRow) : Option Nat → Option Nat
  | some d => some d
  | none => maxPriceDate prices

/-- Assembly of one output row, mirroring the body of `compute_mtm_for_date`:
base price lookup on the trimmed key, Fe adjustment ratio, quantity in DMT,
cost/discount fills, and the MTM formula. -/
def mkOutRow (prices : List PriceRow) (t : ContractsTable) (cutoff : Option Nat)
    (c : ContractRow) : OutRow :=
  { contract := c
    basePrice := basePriceFor prices cutoff (strTrim c.indexName, strTrim c.tenor)
    feRatio := feAdjustmentRatio t.hasFeAdjFlag t.hasTypicalFe c.feAdjFlag c.typicalFe
    qtyDmt := quantityDmt t.hasQuantity t.hasUnit t.hasMoisture c.quantity c.unit c.moisture
    mtmValue :=
      mtmValueOf (basePriceFor prices cutoff (strTrim c.indexName, strTrim c.tenor))
        (feAdjustmentRatio t.hasFeAdjFlag t.hasTypicalFe c.feAdjFlag c.typicalFe)
        (effCost t.hasCost c.cost) (effDiscount t.hasDiscount c.discount)
        (quantityDmt t.hasQuantity t.hasUnit t.hasMoisture c.quantity c.unit c.moisture)
    valuationDate := cutoff }

/-- Embedding of `compute_mtm_for_date` (the in-memory computation; file I/O
is outside the model): normalise both tables, infer the valuation date when
absent, and produce one output row per contract row. -/
def computeMtmForDate (pricesRaw : List PriceRow) (contractsRaw : ContractsTable)
    (valuationDate : Option Nat) : List OutRow :=
  let prices := pricesRaw.map normalisePriceRow
  let t := normaliseContracts contractsRaw
  let cutoff := cutoffFor prices valuationDate
  t.rows.map (mkOutRow prices t cutoff)

example :
    (computeMtmForDate [⟨20240101, "IndexA", "TenorX", some 100⟩]
      ⟨[⟨"K1", "IndexA", "TenorX", some 62, "NOADJ", some 0, some 1, some 100, "DMT", some 0⟩],
        true, true, true, true, true, true, true⟩ (some 20240115)).map OutRow.basePrice =
      [some 100] := by decide

/-- A row of the Daily weather sheet after `load_weather_data`. The source
derives three columns from the date (`dt.year`, `dt.month`,
`dt.isocalendar().week`); the date cell is embedded through exactly these
three projections, which is all the weekly query reads. -/
structure DailyRow where
  year : Int
  month : Nat
  isoWeek : Nat
  state : String
  district : String
  precip : ℚ
  deriving Repr, DecidableEq

/-- One row of the grouped result of `query_weekly_precip_by_state`. -/
structure WeeklyGroupRow where
  state : String
  year : Int
  isoWeek : Nat
  totalPrecip : ℚ
  deriving Repr, DecidableEq

/-- The row filter of `query_weekly_precip_by_state`: case-folded state match
(the queried state is trimmed first), calendar year match, ISO week match. -/
def weeklyFilter (daily : List DailyRow) (state : String) (isoYear : Int)
    (isoWeek : Nat) : List DailyRow :=
  daily.filter
    (fun r => strLower r.state == strLower (strTrim state)
      && r.year == isoYear && r.isoWeek == isoWeek)

/-- Embedding of `query_weekly_precip_by_state`: filter, then group by
(State, Year, ISO_Week) summing the precipitation. Year and week are fixed by
the filter, so the group keys are the distinct state strings of the matching
rows, listed in sorted order as pandas `groupby(sort=True)` produces them. -/
def queryWeeklyPrecipByState (daily : List DailyRow) (state : String)
    (isoYear : Int) (isoWeek : Nat) : List WeeklyGroupRow :=
  ((((weeklyFilter daily state isoYear isoWeek).map (fun r => r.state)).dedup).insertionSort
      (fun a b => a ≤ b)).map
    (fun s =>
      ⟨s, isoYear, isoWeek,
        (((weeklyFilter daily state isoYear isoWeek).filter
          (fun r => r.state == s)).map (fun r => r.precip)).sum⟩)

/-- The parsed weekly-comparison intent, as built by `parse_question` from the
capture groups of the second pattern. -/
structure WeeklyIntent where
  stateA : String
  stateB : String
  isoWeek : Nat
  month : Option Nat
  year : Int
  deriving Repr, DecidableEq

/-- Embedding of the `week_map.get(week_word, 2)` lookup of `parse_question`:
ordinal words map to 1..5, anything else defaults to 2. -/
def weekWordToNum (w : String) : Nat :=
  if w = "first" then 1
  else if w = "second" then 2
  else if w = "third" then 3
  else if w = "fourth" then 4
  else if w = "fifth" then 5
  else 2

/-- Embedding of `MONTH_NAME_TO_NUM.get(month_name, None)`. -/
def monthNameToNum (m : String) : Option Nat :=
  if m = "january" then some 1
  else if m = "february" then some 2
  else if m = "march" then some 3
  else if m = "april" then some 4
  else if m = "may" then some 5
  else if m = "june" then some 6
  else if m = "july" then some 7
  else if m = "august" then some 8
  else if m = "september" then some 9
  else if m = "october" then some 10
  else if m = "november" then some 11
  else if m = "december" then some 12
  else none

/-- Embedding of Python `str.title()` (ASCII): the first character of every
alphabetic run is upper-cased, the rest lower-cased. -/
def titleCase (s : String) : String :=
  ⟨(s.data.foldl
      (fun (acc : List Char × Bool) c =>
        if c.isAlpha then
          ((if acc.2 then c.toLower else c.toUpper) :: acc.1, true)
        else (c :: acc.1, false))
      ([], false)).1.reverse⟩

/-- Construction of the weekly-comparison intent from the regex capture
groups, as in `parse_question` (states are stripped and title-cased, the week
word goes through the ordinal map, the month name through the month map). -/
def mkWeeklyIntent (stateA stateB weekWord monthName : String) (year : Int) :
    WeeklyIntent :=
  { stateA := titleCase (strTrim stateA)
    stateB := titleCase (strTrim stateB)
    isoWeek := weekWordToNum weekWord
    month := monthNameToNum monthName
    year := year }

/-- The fixed no-data reply of the weekly branch of `answer_question`. -/
def noWeeklyDataText : String :=
  "No weekly precipitation data found for the requested states/week."

/-- The `iloc[0]`-or-0.0 total extraction of `answer_question`: the first
grouped row's total when the grouped frame is non-empty, else 0.0 (the
"Total Weekly Precipitation" column always exists on the grouped frame). -/
def firstTotal : List WeeklyGroupRow → ℚ
  | [] => 0
  | r :: _ => r.totalPrecip

/-- One row of the two-row comparison table built by `answer_question`. -/
structure CompareRow where
  state : String
  totalWeeklyPrecip : ℚ
  year : Int
  isoWeek : Nat
  deriving Repr, DecidableEq

/-- The text reply of the data branch (the source formats the totals with
two decimal places; the numeric rendering is abstracted by `toString`). -/
def weeklyCompareText (i : WeeklyIntent) (totalA totalB : ℚ) : String :=
  "In week " ++ toString i.isoWeek ++ " of " ++ toString i.year ++ ", state "
    ++ i.stateA ++ " had " ++ toString totalA
    ++ " units of precipitation, while state " ++ i.stateB ++ " had "
    ++ toString totalB ++ " units."

/-- Embedding of the `weekly_state_compare` branch of `answer_question`: run
the weekly query for both states; when both results are empty return the
fixed no-data text and no table, otherwise return the comparison text and the
two-row table. -/
def answerWeeklyCompare (daily : List DailyRow) (i : WeeklyIntent) :
    String × Option (List CompareRow) :=
  if (queryWeeklyPrecipByState daily i.stateA i.year i.isoWeek).isEmpty &&
      (queryWeeklyPrecipByState daily i.stateB i.year i.isoWeek).isEmpty then
    (noWeeklyDataText, none)
  else
    (weeklyCompareText i
        (firstTotal (queryWeeklyPrecipByState daily i.stateA i.year i.isoWeek))
        (firstTotal (queryWeeklyPrecipByState daily i.stateB i.year i.isoWeek)),
      some
        [⟨i.stateA, firstTotal (queryWeeklyPrecipByState daily i.stateA i.year i.isoWeek),
            i.year, i.isoWeek⟩,
          ⟨i.stateB, firstTotal (queryWeeklyPrecipByState daily i.stateB i.year i.isoWeek),
            i.year, i.isoWeek⟩])

example : weekWordToNum "third" = 3 := by decide

example : mkWeeklyIntent " goa " "pune" "tenth" "november" 2025 =
    ⟨"Goa", "Pune", 2, some 11, 2025⟩ := by decide

example :
    (answerWeeklyCompare [] ⟨"Goa", "Pune", 2, some 11, 2025⟩).2 = none := by decide

/-! Helper lemmas about the latest-record fold. -/

theorem pickLatest_isSome (acc : Option PriceRow) (p : PriceRow) :
    ∃ r, pickLatest acc p = some r := by
  cases acc with
  | none => exact ⟨p, rfl⟩
  | some q =>
    by_cases h : q.date ≤ p.date
    · exact ⟨p, by simp [pickLatest, h]⟩
    · exact ⟨q, by simp [pickLatest, h]⟩

theorem foldl_pickLatest_isSome (l : List PriceRow) (a : PriceRow) :
    ∃ r, l.foldl pickLatest (some a) = some r := by
  induction l generalizing a with
  | nil => exact ⟨a, rfl⟩
  | cons p l ih =>
    obtain ⟨r0, hr0⟩ := pickLatest_isSome (some a) p
    rw [List.foldl_cons, hr0]
    exact ih r0

theorem foldl_pickLatest_none_iff (l : List PriceRow) :
    l.foldl pickLatest none = none ↔ l = [] := by
  cases l with
  | nil => simp
  | cons p l =>
    rw [List.foldl_cons]
    show l.foldl pickLatest (some p) = none ↔ _
    obtain ⟨r, hr⟩ := foldl_pickLatest_isSome l p
    simp [hr]

theorem foldl_pickLatest_spec (l : List PriceRow) (acc : Option PriceRow)
    (r : PriceRow) (h : l.foldl pickLatest acc = some r) :
    (acc = some r ∨ r ∈ l) ∧ (∀ a, acc = some a → a.date ≤ r.date) ∧
      (∀ q ∈ l, q.date ≤ r.date) := by
  induction l generalizing acc with
  | nil =>
    rw [List.foldl_nil] at h
    refine ⟨Or.inl h, fun a ha => ?_, by simp⟩
    rw [ha] at h
    cases h
    exact le_refl _
  | cons p l ih =>
    rw [List.foldl_cons] at h
    obtain ⟨hmem, hacc, hall⟩ := ih (pickLatest acc p) h
    have hp : p.date ≤ r.date := by
      cases acc with
      | none => exact hacc p rfl
      | some q =>
        by_cases hqp : q.date ≤ p.date
        · exact hacc p (by simp [pickLatest, hqp])
        · exact le_trans (le_of_not_le hqp) (hacc q (by simp [pickLatest, hqp]))
    refine ⟨?_, ?_, ?_⟩
    · rcases hmem with hm | hm
      · cases acc with
        | none =>
          simp only [pickLatest] at hm
          cases hm
          exact Or.inr (List.mem_cons_self _ _)
        | some q =>
          by_cases hqp : q.date ≤ p.date
          · simp only [pickLatest, if_pos hqp] at hm
            cases hm
            exact Or.inr (List.mem_cons_self _ _)
          · simp only [pickLatest, if_neg hqp] at hm
            exact Or.inl hm
      · exact Or.inr (List.mem_cons_of_mem _ hm)
    · intro a ha
      cases ha
      by_cases hap : a.date ≤ p.date
      · exact le_trans hap hp
      · exact hacc a (by simp [pickLatest, hap])
    · intro q hq
      rcases List.mem_cons.mp hq with rfl | hq
      · exact hp
      · exact hall q hq

theorem latestPriceRecord_eq_none_iff (prices : List PriceRow)
    (cutoff : Option Nat) (key : String × String) :
    latestPriceRecord prices cutoff key = none ↔
      ∀ p ∈ prices, ¬(dateLeCutoff p.date cutoff = true ∧ matchesKey key p = true) := by
  unfold latestPriceRecord
  rw [foldl_pickLatest_none_iff, List.filter_eq_nil_iff]
  simp [Bool.and_eq_true]

theorem latestPriceRecord_spec (prices : List PriceRow) (cutoff : Option Nat)
    (key : String × String) (r : PriceRow)
    (h : latestPriceRecord prices cutoff key = some r) :
    r ∈ prices ∧ dateLeCutoff r.date cutoff = true ∧ matchesKey key r = true ∧
      ∀ q ∈ prices, dateLeCutoff q.date cutoff = true → matchesKey key q = true →
        q.date ≤ r.date := by
  unfold latestPriceRecord at h
  obtain ⟨hmem, -, hall⟩ := foldl_pickLatest_spec _ none r h
  rcases hmem with hm | hm
  · cases hm
  · have hf := List.mem_filter.mp hm
    have hpred := hf.2
    rw [Bool.and_eq_true] at hpred
    refine ⟨hf.1, hpred.1, hpred.2, ?_⟩
    intro q hq h1 h2
    exact hall q (List.mem_filter.mpr ⟨hq, by rw [Bool.and_eq_true]; exact ⟨h1, h2⟩⟩)

theorem computeMtmForDate_eq_map (pricesRaw : List PriceRow)
    (t : ContractsTable) (vd : Option Nat) :
    computeMtmForDate pricesRaw t vd =
      t.rows.map (fun c =>
        mkOutRow (pricesRaw.map normalisePriceRow) (normaliseContracts t)
          (cutoffFor (pricesRaw.map normalisePriceRow) vd)
          (normaliseContractRow t c)) := by
  unfold computeMtmForDate
  show (normaliseContracts t).rows.map _ = _
  unfold normaliseContracts
  rw [List.map_map]
  rfl

theorem matchesKey_eq_true_iff (key : String × String) (p : PriceRow) :
    matchesKey key p = true ↔ (p.indexName = key.1 ∧ p.tenor = key.2) := by
  simp [matchesKey]

theorem dateLeCutoff_some_iff (d c : Nat) :
    dateLeCutoff d (some c) = true ↔ d ≤ c := by
  simp [dateLeCutoff]

/-- C1: for every contract, the resolved `base_index_price` is the price cell
of the price record with the latest date at or before the valuation date among
records whose whitespace-trimmed (index name, tenor) equals the contract's
whitespace-trimmed key, and it is null when no such record exists (in
particular when the price table is empty). The second part assumes price
uniqueness at the maximal date only through the prices of same-dated matching
records being equal. -/
theorem base_price_as_of_correct (pricesRaw : List PriceRow)
    (t : ContractsTable) (vd : Nat) :
    ∀ r ∈ computeMtmForDate pricesRaw t (some vd),
      ((∀ p ∈ pricesRaw, strTrim p.indexName = strTrim r.contract.indexName →
          strTrim p.tenor = strTrim r.contract.tenor → ¬p.date ≤ vd) →
        r.basePrice = none) ∧
      (∀ p ∈ pricesRaw, strTrim p.indexName = strTrim r.contract.indexName →
        strTrim p.tenor = strTrim r.contract.tenor → p.date ≤ vd →
        (∀ q ∈ pricesRaw, strTrim q.indexName = strTrim r.contract.indexName →
          strTrim q.tenor = strTrim r.contract.tenor → q.date ≤ vd →
          q.date ≤ p.date) →
        (∀ q ∈ pricesRaw, strTrim q.indexName = strTrim r.contract.indexName →
          strTrim q.tenor = strTrim r.contract.tenor → q.date = p.date →
          q.price = p.price) →
        r.basePrice = p.price) := by
  intro r hr
  rw [computeMtmForDate_eq_map] at hr
  obtain ⟨c, hc, rfl⟩ := List.mem_map.mp hr
  simp only [mkOutRow, cutoffFor]
  constructor
  · intro hnone
    have hlat :
        latestPriceRecord (pricesRaw.map normalisePriceRow) (some vd)
          (strTrim (normaliseContractRow t c).indexName,
            strTrim (normaliseContractRow t c).tenor) = none := by
      rw [latestPriceRecord_eq_none_iff]
      intro p' hp'
      obtain ⟨p, hp, rfl⟩ := List.mem_map.mp hp'
      rintro ⟨hdle, hmk⟩
      rw [matchesKey_eq_true_iff] at hmk
      have h1 : strTrim p.indexName = strTrim (normaliseContractRow t c).indexName :=
        hmk.1
      have h2 : strTrim p.tenor = strTrim (normaliseContractRow t c).tenor := hmk.2
      have hd : p.date ≤ vd := by
        have : dateLeCutoff p.date (some vd) = true := hdle
        rwa [dateLeCutoff_some_iff] at this
      exact hnone p hp h1 h2 hd
    rw [basePriceFor, hlat]
    rfl
  · intro p hp hk1 hk2 hd hmax huniq
    rcases hres :
        latestPriceRecord (pricesRaw.map normalisePriceRow) (some vd)
          (strTrim (normaliseContractRow t c).indexName,
            strTrim (normaliseContractRow t c).tenor) with _ | rr
    · exfalso
      rw [latestPriceRecord_eq_none_iff] at hres
      refine hres (normalisePriceRow p) (List.mem_map_of_mem _ hp) ⟨?_, ?_⟩
      · rw [dateLeCutoff_some_iff]
        exact hd
      · rw [matchesKey_eq_true_iff]
        exact ⟨hk1, hk2⟩
    · obtain ⟨hmem, hdle, hmk, hlatest⟩ := latestPriceRecord_spec _ _ _ _ hres
      obtain ⟨q0, hq0, rfl⟩ := List.mem_map.mp hmem
      rw [matchesKey_eq_true_iff] at hmk
      have hq0k1 : strTrim q0.indexName = strTrim (normaliseContractRow t c).indexName :=
        hmk.1
      have hq0k2 : strTrim q0.tenor = strTrim (normaliseContractRow t c).tenor := hmk.2
      have hq0d : q0.date ≤ vd := by
        have : dateLeCutoff q0.date (some vd) = true := hdle
        rwa [dateLeCutoff_some_iff] at this
      have h1 : q0.date ≤ p.date := hmax q0 hq0 hq0k1 hq0k2 hq0d
      have h2 : p.date ≤ q0.date := by
        have := hlatest (normalisePriceRow p) (List.mem_map_of_mem _ hp)
          (by rw [dateLeCutoff_some_iff]; exact hd)
          (by rw [matchesKey_eq_true_iff]; exact ⟨hk1, hk2⟩)
        exact this
      have hdd : q0.date = p.date := le_antisymm h1 h2
      have hpq : q0.price = p.price := huniq q0 hq0 hq0k1 hq0k2 hdd
      rw [basePriceFor, hres]
      exact hpq

/-- Witness for C1 at the spec's as-of example: prices 100 on 2024-01-01 and
110 on 2024-02-01 for (IndexA, TenorX); a contract with that key valued on
2024-01-15 resolves base price 100. -/
theorem base_price_as_of_correct_witness :
    ((computeMtmForDate
        [⟨20240101, "IndexA", "TenorX", some 100⟩,
          ⟨20240201, "IndexA", "TenorX", some 110⟩]
        ⟨[⟨"K1", "IndexA", "TenorX", none, "NOADJ", none, none, none, "DMT", none⟩],
          true, true, true, true, true, true, true⟩ (some 20240115)).get
        ⟨0, by decide⟩) ∈
      computeMtmForDate
        [⟨20240101, "IndexA", "TenorX", some 100⟩,
          ⟨20240201, "IndexA", "TenorX", some 110⟩]
        ⟨[⟨"K1", "IndexA", "TenorX", none, "NOADJ", none, none, none, "DMT", none⟩],
          true, true, true, true, true, true, true⟩ (some 20240115) ∧
    ((computeMtmForDate
        [⟨20240101, "IndexA", "TenorX", some 100⟩,
          ⟨20240201, "IndexA", "TenorX", some 110⟩]
        ⟨[⟨"K1", "IndexA", "TenorX", none, "NOADJ", none, none, none, "DMT", none⟩],
          true, true, true, true, true, true, true⟩ (some 20240115)).get
        ⟨0, by decide⟩).basePrice = some 100 := by
  refine ⟨by decide, ?_⟩
  exact (base_price_as_of_correct
      [⟨20240101, "IndexA", "TenorX", some 100⟩,
        ⟨20240201, "IndexA", "TenorX", some 110⟩]
      ⟨[⟨"K1", "IndexA", "TenorX", none, "NOADJ", none, none, none, "DMT", none⟩],
        true, true, true, true, true, true, true⟩ 20240115 _ (by decide)).2
    ⟨20240101, "IndexA", "TenorX", some 100⟩ (by decide) (by decide) (by decide)
    (by decide) (by decide) (by decide)

/-- C2: for every output row, `mtm_value` equals
`(base_index_price * fe_adjustment_ratio + cost) * discount * quantity_dmt`
where a missing or non-numeric cost is replaced by 0.0 and a missing or
non-numeric discount by 1.0, with null propagation through the arithmetic
(in particular a null base price gives a null `mtm_value`); the computation
is a total function, so no exception is raised for missing price data. -/
theorem mtm_value_formula (pricesRaw : List PriceRow) (t : ContractsTable)
    (vd : Option Nat) :
    ∀ r ∈ computeMtmForDate pricesRaw t vd,
      r.mtmValue =
        r.basePrice.bind (fun b =>
          r.qtyDmt.map (fun q =>
            (b * r.feRatio + (if t.hasCost then r.contract.cost.getD 0 else 0)) *
              (if t.hasDiscount then r.contract.discount.getD 1 else 1) * q)) ∧
      (r.basePrice = none → r.mtmValue = none) := by
  intro r hr
  rw [computeMtmForDate_eq_map] at hr
  obtain ⟨c, hc, rfl⟩ := List.mem_map.mp hr
  constructor
  · rfl
  · intro h
    simp only [mkOutRow] at h ⊢
    simp only [mtmValueOf, h, Option.none_bind]

/-- Witness for C2 on a concrete one-contract table whose key has no price
record: the formula instance and the null-propagation implication hold on the
output row. -/
theorem mtm_value_formula_witness :
    ((computeMtmForDate [⟨20240101, "IndexB", "TenorX", some 100⟩]
        ⟨[⟨"K2", "IndexA", "TenorX", none, "NOADJ", some 5, none, none, "DMT", none⟩],
          true, true, true, true, true, true, true⟩ (some 20240115)).get
        ⟨0, by decide⟩) ∈
      computeMtmForDate [⟨20240101, "IndexB", "TenorX", some 100⟩]
        ⟨[⟨"K2", "IndexA", "TenorX", none, "NOADJ", some 5, none, none, "DMT", none⟩],
          true, true, true, true, true, true, true⟩ (some 20240115) ∧
    (((computeMtmForDate [⟨20240101, "IndexB", "TenorX", some 100⟩]
        ⟨[⟨"K2", "IndexA", "TenorX", none, "NOADJ", some 5, none, none, "DMT", none⟩],
          true, true, true, true, true, true, true⟩ (some 20240115)).get
        ⟨0, by decide⟩).basePrice = none →
      ((computeMtmForDate [⟨20240101, "IndexB", "TenorX", some 100⟩]
        ⟨[⟨"K2", "IndexA", "TenorX", none, "NOADJ", some 5, none, none, "DMT", none⟩],
          true, true, true, true, true, true, true⟩ (some 20240115)).get
        ⟨0, by decide⟩).mtmValue = none) := by
  refine ⟨by decide, ?_⟩
  exact (mtm_value_formula [⟨20240101, "IndexB", "TenorX", some 100⟩]
      ⟨[⟨"K2", "IndexA", "TenorX", none, "NOADJ", some 5, none, none, "DMT", none⟩],
        true, true, true, true, true, true, true⟩ (some 20240115) _ (by decide)).2

/-- C3: for every output row, the Fe adjustment ratio is 1.0 when the flag
column is present and the (trimmed) flag upper-cases to "NOADJ", when the
Typical Fe column is absent, or when the Typical Fe cell is null; otherwise
it is `typical_fe / 62.0`. The NOADJ rule overrides Typical Fe. -/
theorem fe_ratio_correct (pricesRaw : List PriceRow) (t : ContractsTable)
    (vd : Option Nat) :
    ∀ r ∈ computeMtmForDate pricesRaw t vd,
      (t.hasFeAdjFlag = true → strUpper r.contract.feAdjFlag = "NOADJ" →
        r.feRatio = 1) ∧
      (t.hasTypicalFe = false → r.feRatio = 1) ∧
      (r.contract.typicalFe = none → r.feRatio = 1) ∧
      (∀ fe, r.contract.typicalFe = some fe → t.hasTypicalFe = true →
        ¬(t.hasFeAdjFlag = true ∧ strUpper r.contract.feAdjFlag = "NOADJ") →
        r.feRatio = fe / 62) := by
  intro r hr
  rw [computeMtmForDate_eq_map] at hr
  obtain ⟨c, hc, rfl⟩ := List.mem_map.mp hr
  simp only [mkOutRow, normaliseContracts]
  refine ⟨?_, ?_, ?_, ?_⟩
  · intro hflag hup
    simp [feAdjustmentRatio, hflag, hup]
  · intro hfe
    simp [feAdjustmentRatio, hfe]
  · intro hnone
    simp [feAdjustmentRatio, hnone]
  · intro fe hfe hhasfe hn
    have hcond :
        (t.hasFeAdjFlag && (strUpper (normaliseContractRow t c).feAdjFlag == "NOADJ"))
          = false := by
      cases hb : t.hasFeAdjFlag with
      | false => simp
      | true =>
        simp only [Bool.true_and]
        rw [beq_eq_false_iff_ne]
        intro heq
        exact hn ⟨hb, heq⟩
    simp [feAdjustmentRatio, hcond, hfe, hhasfe]

/-- Witness for C3: the flag "NoAdj" (mixed case, with surrounding blanks in
the raw cell) forces ratio 1.0 even though a Typical Fe value is present. -/
theorem fe_ratio_correct_witness :
    ((computeMtmForDate []
        ⟨[⟨"K3", "IndexA", "TenorX", some 60, " NoAdj ", none, none, none, "DMT", none⟩],
          true, true, true, true, true, true, true⟩ (some 20240115)).get
        ⟨0, by decide⟩) ∈
      computeMtmForDate []
        ⟨[⟨"K3", "IndexA", "TenorX", some 60, " NoAdj ", none, none, none, "DMT", none⟩],
          true, true, true, true, true, true, true⟩ (some 20240115) ∧
    ((computeMtmForDate []
        ⟨[⟨"K3", "IndexA", "TenorX", some 60, " NoAdj ", none, none, none, "DMT", none⟩],
          true, true, true, true, true, true, true⟩ (some 20240115)).get
        ⟨0, by decide⟩).feRatio = 1 := by
  refine ⟨by decide, ?_⟩
  exact (fe_ratio_correct []
      ⟨[⟨"K3", "IndexA", "TenorX", some 60, " NoAdj ", none, none, none, "DMT", none⟩],
        true, true, true, true, true, true, true⟩ (some 20240115) _ (by decide)).1
    (by decide) (by decide)

/-- C4: for every output row (with the Quantity column present),
`quantity_dmt` is the raw quantity when the unit upper-cases and trims to
"DMT", is `quantity * (1 - moisture)` with null moisture replaced by 0.0 when
the unit upper-cases and trims to "WMT", and is the raw quantity when the
Unit column is absent entirely. -/
theorem quantity_dmt_correct (pricesRaw : List PriceRow) (t : ContractsTable)
    (vd : Option Nat) :
    ∀ r ∈ computeMtmForDate pricesRaw t vd, t.hasQuantity = true →
      (t.hasUnit = true → strTrim (strUpper r.contract.unit) = "DMT" →
        r.qtyDmt = r.contract.quantity) ∧
      (t.hasUnit = true → strTrim (strUpper r.contract.unit) = "WMT" →
        r.qtyDmt = r.contract.quantity.map
          (fun q => q *
            (1 - (if t.hasMoisture then r.contract.moisture.getD 0 else 0)))) ∧
      (t.hasUnit = false → r.qtyDmt = r.contract.quantity) := by
  intro r hr hq
  rw [computeMtmForDate_eq_map] at hr
  obtain ⟨c, hc, rfl⟩ := List.mem_map.mp hr
  simp only [mkOutRow, normaliseContracts]
  refine ⟨?_, ?_, ?_⟩
  · intro hu hdmt
    have hne : (strTrim (strUpper (normaliseContractRow t c).unit) == "WMT") = false := by
      rw [beq_eq_false_iff_ne, hdmt]
      decide
    cases hm : t.hasMoisture with
    | false => simp [quantityDmt, hq, hu, hm]
    | true => simp [quantityDmt, hq, hu, hm, hne]
  · intro hu hwmt
    cases hm : t.hasMoisture with
    | true => simp [quantityDmt, hq, hu, hm, hwmt]
    | false =>
      simp only [quantityDmt, hq, hu, hm, if_true, if_false, Bool.false_eq_true]
      cases cq : (normaliseContractRow t c).quantity with
      | none => simp
      | some q => simp
  · intro hu
    simp [quantityDmt, hq, hu]

/-- Witness for C4: unit "DMT" keeps the raw quantity untouched. -/
theorem quantity_dmt_correct_witness :
    ((computeMtmForDate []
        ⟨[⟨"K4", "IndexA", "TenorX", none, "NOADJ", none, none, some 100, "DMT", some 0⟩],
          true, true, true, true, true, true, true⟩ (some 20240115)).get
        ⟨0, by decide⟩) ∈
      computeMtmForDate []
        ⟨[⟨"K4", "IndexA", "TenorX", none, "NOADJ", none, none, some 100, "DMT", some 0⟩],
          true, true, true, true, true, true, true⟩ (some 20240115) ∧
    ((computeMtmForDate []
        ⟨[⟨"K4", "IndexA", "TenorX", none, "NOADJ", none, none, some 100, "DMT", some 0⟩],
          true, true, true, true, true, true, true⟩ (some 20240115)).get
        ⟨0, by decide⟩).qtyDmt = some 100 := by
  refine ⟨by decide, ?_⟩
  have h := ((quantity_dmt_correct []
      ⟨[⟨"K4", "IndexA", "TenorX", none, "NOADJ", none, none, some 100, "DMT", some 0⟩],
        true, true, true, true, true, true, true⟩ (some 20240115)
      ((computeMtmForDate []
        ⟨[⟨"K4", "IndexA", "TenorX", none, "NOADJ", none, none, some 100, "DMT", some 0⟩],
          true, true, true, true, true, true, true⟩ (some 20240115)).get
        ⟨0, by decide⟩) (by decide)) (by decide)).1 (by decide) (by decide)
  rw [h]
  decide

/-- C9: for every output row with the Unit column present, any unit whose
trimmed upper-cased form is not "WMT" (including values outside the
documented DMT/WMT enum) is treated like "DMT": the raw quantity passes
through with no moisture conversion. -/
theorem quantity_non_wmt_passthrough (pricesRaw : List PriceRow)
    (t : ContractsTable) (vd : Option Nat) :
    ∀ r ∈ computeMtmForDate pricesRaw t vd, t.hasQuantity = true →
      t.hasUnit = true → strTrim (strUpper r.contract.unit) ≠ "WMT" →
      r.qtyDmt = r.contract.quantity := by
  intro r hr hq hu hne
  rw [computeMtmForDate_eq_map] at hr
  obtain ⟨c, hc, rfl⟩ := List.mem_map.mp hr
  simp only [mkOutRow, normaliseContracts] at hne ⊢
  have hfalse : (strTrim (strUpper (normaliseContractRow t c).unit) == "WMT") = false :=
    beq_eq_false_iff_ne.mpr hne
  cases hm : t.hasMoisture with
  | false => simp [quantityDmt, hq, hu, hm]
  | true => simp [quantityDmt, hq, hu, hm, hfalse]

/-- Witness for C9: the out-of-enum unit "MT" (with a moisture value present)
keeps the raw quantity. -/
theorem quantity_non_wmt_passthrough_witness :
    ((computeMtmForDate []
        ⟨[⟨"K9", "IndexA", "TenorX", none, "NOADJ", none, none, some 100, "MT", some 0⟩],
          true, true, true, true, true, true, true⟩ (some 20240115)).get
        ⟨0, by decide⟩) ∈
      computeMtmForDate []
        ⟨[⟨"K9", "IndexA", "TenorX", none, "NOADJ", none, none, some 100, "MT", some 0⟩],
          true, true, true, true, true, true, true⟩ (some 20240115) ∧
    ((computeMtmForDate []
        ⟨[⟨"K9", "IndexA", "TenorX", none, "NOADJ", none, none, some 100, "MT", some 0⟩],
          true, true, true, true, true, true, true⟩ (some 20240115)).get
        ⟨0, by decide⟩).qtyDmt = some 100 := by
  refine ⟨by decide, ?_⟩
  have h := quantity_non_wmt_passthrough []
      ⟨[⟨"K9", "IndexA", "TenorX", none, "NOADJ", none, none, some 100, "MT", some 0⟩],
        true, true, true, true, true, true, true⟩ (some 20240115)
      ((computeMtmForDate []
        ⟨[⟨"K9", "IndexA", "TenorX", none, "NOADJ", none, none, some 100, "MT", some 0⟩],
          true, true, true, true, true, true, true⟩ (some 20240115)).get
        ⟨0, by decide⟩) (by decide) (by decide) (by decide) (by decide)
  rw [h]
  decide

/-- C5: the output has exactly one row per contract row for every input, and
a contract whose trimmed key matches no price record receives a null base
price and a null MTM value while staying in the output. -/
theorem row_count_preserved (pricesRaw : List PriceRow) (t : ContractsTable)
    (vd : Option Nat) :
    (computeMtmForDate pricesRaw t vd).length = t.rows.length ∧
    ∀ r ∈ computeMtmForDate pricesRaw t vd,
      (∀ p ∈ pricesRaw, ¬(strTrim p.indexName = strTrim r.contract.indexName ∧
          strTrim p.tenor = strTrim r.contract.tenor)) →
      r.basePrice = none ∧ r.mtmValue = none := by
  constructor
  · rw [computeMtmForDate_eq_map, List.length_map]
  · intro r hr hnomatch
    rw [computeMtmForDate_eq_map] at hr
    obtain ⟨c, hc, rfl⟩ := List.mem_map.mp hr
    simp only [mkOutRow] at hnomatch ⊢
    have hlat :
        latestPriceRecord (pricesRaw.map normalisePriceRow)
          (cutoffFor (pricesRaw.map normalisePriceRow) vd)
          (strTrim (normaliseContractRow t c).indexName,
            strTrim (normaliseContractRow t c).tenor) = none := by
      rw [latestPriceRecord_eq_none_iff]
      intro p' hp'
      obtain ⟨p, hp, rfl⟩ := List.mem_map.mp hp'
      rintro ⟨-, hmk⟩
      rw [matchesKey_eq_true_iff] at hmk
      exact hnomatch p hp ⟨hmk.1, hmk.2⟩
    rw [basePriceFor, hlat]
    exact ⟨rfl, rfl⟩

/-- Witness for C5: one contract against a price table whose only key differs
from the contract's; the row survives with null base price and MTM value. -/
theorem row_count_preserved_witness :
    (computeMtmForDate [⟨20240101, "IndexB", "TenorX", some 100⟩]
        ⟨[⟨"K5", "IndexA", "TenorX", none, "NOADJ", none, none, some 100, "DMT", none⟩],
          true, true, true, true, true, true, true⟩ (some 20240115)).length = 1 ∧
    (((computeMtmForDate [⟨20240101, "IndexB", "TenorX", some 100⟩]
        ⟨[⟨"K5", "IndexA", "TenorX", none, "NOADJ", none, none, some 100, "DMT", none⟩],
          true, true, true, true, true, true, true⟩ (some 20240115)).get
        ⟨0, by decide⟩).basePrice = none ∧
      ((computeMtmForDate [⟨20240101, "IndexB", "TenorX", some 100⟩]
        ⟨[⟨"K5", "IndexA", "TenorX", none, "NOADJ", none, none, some 100, "DMT", none⟩],
          true, true, true, true, true, true, true⟩ (some 20240115)).get
        ⟨0, by decide⟩).mtmValue = none) := by
  constructor
  · exact (row_count_preserved [⟨20240101, "IndexB", "TenorX", some 100⟩]
      ⟨[⟨"K5", "IndexA", "TenorX", none, "NOADJ", none, none, some 100, "DMT", none⟩],
        true, true, true, true, true, true, true⟩ (some 20240115)).1
  · exact (row_count_preserved [⟨20240101, "IndexB", "TenorX", some 100⟩]
      ⟨[⟨"K5", "IndexA", "TenorX", none, "NOADJ", none, none, some 100, "DMT", none⟩],
        true, true, true, true, true, true, true⟩ (some 20240115)).2
      ((computeMtmForDate [⟨20240101, "IndexB", "TenorX", some 100⟩]
        ⟨[⟨"K5", "IndexA", "TenorX", none, "NOADJ", none, none, some 100, "DMT", none⟩],
          true, true, true, true, true, true, true⟩ (some 20240115)).get
        ⟨0, by decide⟩) (by decide) (by decide)

/-- C6 (code-bug evidence): when no valuation date is supplied and the price
table is empty, `compute_mtm_for_date` does not fail: the inferred valuation
date is `NaT` (`none`), every price comparison with it is false, and the
computation silently returns one row per contract with null base price, null
MTM value and a `NaT` valuation-date stamp. The source contains no
`ConfigurationError` at all. -/
theorem empty_prices_no_valuation_date_silently_proceeds :
    computeMtmForDate []
      ⟨[⟨"K6", "IndexA", "TenorX", none, "NOADJ", none, none, some 100, "DMT", none⟩],
        true, true, true, true, true, true, true⟩ none =
      [⟨⟨"K6", "IndexA", "TenorX", none, "NOADJ", none, none, some 100, "DMT", none⟩,
        none, 1, some 100, none, none⟩] := by decide

/-- C7: the price-lookup key comparison is exact string equality after
whitespace trimming on both sides: the matched record's key letters equal the
contract's trimmed key exactly (so keys differing only in letter case never
match), and a contract key equal to no record's trimmed key resolves to no
record (a null price, not an error). -/
theorem lookup_key_exact (pricesRaw : List PriceRow) (cutoff : Option Nat)
    (a b : String) :
    (∀ p, latestPriceRecord (pricesRaw.map normalisePriceRow) cutoff
        (strTrim a, strTrim b) = some p →
      p.indexName = strTrim a ∧ p.tenor = strTrim b) ∧
    ((∀ p ∈ pricesRaw, ¬(strTrim p.indexName = strTrim a ∧
        strTrim p.tenor = strTrim b)) →
      latestPriceRecord (pricesRaw.map normalisePriceRow) cutoff
        (strTrim a, strTrim b) = none) := by
  constructor
  · intro p hp
    obtain ⟨-, -, hmk, -⟩ := latestPriceRecord_spec _ _ _ _ hp
    rw [matchesKey_eq_true_iff] at hmk
    exact hmk
  · intro hnone
    rw [latestPriceRecord_eq_none_iff]
    intro p' hp'
    obtain ⟨p, hp, rfl⟩ := List.mem_map.mp hp'
    rintro ⟨-, hmk⟩
    rw [matchesKey_eq_true_iff] at hmk
    exact hnone p hp ⟨hmk.1, hmk.2⟩

/-- Witness for C7: a contract key "indexa" differing from the stored
"IndexA" only in letter case matches nothing and resolves to no record. -/
theorem lookup_key_exact_witness :
    (∀ p ∈ [(⟨20240101, "IndexA", "TenorX", some 100⟩ : PriceRow)],
      ¬(strTrim p.indexName = strTrim "indexa" ∧
        strTrim p.tenor = strTrim "TenorX")) ∧
    latestPriceRecord
      ([(⟨20240101, "IndexA", "TenorX", some 100⟩ : PriceRow)].map normalisePriceRow)
      (some 20240115) (strTrim "indexa", strTrim "TenorX") = none := by
  refine ⟨by decide, ?_⟩
  exact (lookup_key_exact [⟨20240101, "IndexA", "TenorX", some 100⟩]
    (some 20240115) "indexa" "TenorX").2 (by decide)

theorem queryWeekly_eq_nil_iff (daily : List DailyRow) (state : String)
    (y : Int) (w : Nat) :
    queryWeeklyPrecipByState daily state y w = [] ↔
      weeklyFilter daily state y w = [] := by
  unfold queryWeeklyPrecipByState
  rw [List.map_eq_nil_iff]
  constructor
  · intro h
    have hperm := List.perm_insertionSort (fun a b => a ≤ b)
      ((weeklyFilter daily state y w).map (fun r => r.state)).dedup
    rw [h] at hperm
    have hlen := hperm.length_eq
    simp only [List.length_nil] at hlen
    have hded :
        ((weeklyFilter daily state y w).map (fun r => r.state)).dedup = [] :=
      List.length_eq_zero.mp hlen.symm
    rw [List.dedup_eq_nil] at hded
    exact List.map_eq_nil_iff.mp hded
  · intro h
    rw [h]
    rfl

/-- C8: in the weekly state-comparison intent, the ordinal week word maps
"first".."fifth" to 1..5 and any other word defaults to 2, and the weekly
answer (totals, table and text) depends only on the state names, the year and
that week number: two intents built from the same capture groups except for
the month name produce identical answers, so the parsed month never filters
the daily rows. -/
theorem week_word_map_and_month_unused (daily : List DailyRow)
    (sa sb ww mn mn2 : String) (y : Int) :
    (weekWordToNum "first" = 1 ∧ weekWordToNum "second" = 2 ∧
      weekWordToNum "third" = 3 ∧ weekWordToNum "fourth" = 4 ∧
      weekWordToNum "fifth" = 5) ∧
    (ww ≠ "first" → ww ≠ "second" → ww ≠ "third" → ww ≠ "fourth" →
      ww ≠ "fifth" → weekWordToNum ww = 2) ∧
    answerWeeklyCompare daily (mkWeeklyIntent sa sb ww mn y) =
      answerWeeklyCompare daily (mkWeeklyIntent sa sb ww mn2 y) := by
  refine ⟨by decide, ?_, ?_⟩
  · intro h1 h2 h3 h4 h5
    simp [weekWordToNum, h1, h2, h3, h4, h5]
  · rfl

/-- Witness for C8: the unrecognized week word "tenth" defaults to week 2,
and changing only the month name ("november" to "january") leaves the weekly
answer unchanged on a concrete daily table. -/
theorem week_word_map_and_month_unused_witness :
    weekWordToNum "tenth" = 2 ∧
    answerWeeklyCompare [⟨2025, 11, 2, "Goa", "D1", 5⟩]
        (mkWeeklyIntent "goa" "pune" "tenth" "november" 2025) =
      answerWeeklyCompare [⟨2025, 11, 2, "Goa", "D1", 5⟩]
        (mkWeeklyIntent "goa" "pune" "tenth" "january" 2025) := by
  constructor
  · exact (week_word_map_and_month_unused [⟨2025, 11, 2, "Goa", "D1", 5⟩]
      "goa" "pune" "tenth" "november" "january" 2025).2.1
      (by decide) (by decide) (by decide) (by decide) (by decide)
  · exact (week_word_map_and_month_unused [⟨2025, 11, 2, "Goa", "D1", 5⟩]
      "goa" "pune" "tenth" "november" "january" 2025).2.2

theorem answerWeeklyCompare_both_empty (daily : List DailyRow) (i : WeeklyIntent)
    (h1 : queryWeeklyPrecipByState daily i.stateA i.year i.isoWeek = [])
    (h2 : queryWeeklyPrecipByState daily i.stateB i.year i.isoWeek = []) :
    answerWeeklyCompare daily i = (noWeeklyDataText, none) := by
  unfold answerWeeklyCompare
  rw [h1, h2]
  rfl

theorem answerWeeklyCompare_not_both_empty (daily : List DailyRow)
    (i : WeeklyIntent)
    (h : ((queryWeeklyPrecipByState daily i.stateA i.year i.isoWeek).isEmpty &&
        (queryWeeklyPrecipByState daily i.stateB i.year i.isoWeek).isEmpty) ≠ true) :
    answerWeeklyCompare daily i =
      (weeklyCompareText i
          (firstTotal (queryWeeklyPrecipByState daily i.stateA i.year i.isoWeek))
          (firstTotal (queryWeeklyPrecipByState daily i.stateB i.year i.isoWeek)),
        some
          [⟨i.stateA,
              firstTotal (queryWeeklyPrecipByState daily i.stateA i.year i.isoWeek),
              i.year, i.isoWeek⟩,
            ⟨i.stateB,
              firstTotal (queryWeeklyPrecipByState daily i.stateB i.year i.isoWeek),
              i.year, i.isoWeek⟩]) := by
  unfold answerWeeklyCompare
  rw [if_neg h]

/-- C10: the weekly branch returns the fixed no-data text with a null table
exactly when both states have no matching daily rows for the requested year
and ISO week; when exactly one state has matching rows, the two-row
comparison table is returned and the state without data is reported with
total weekly precipitation 0.0. -/
theorem weekly_no_data_only_when_both_empty (daily : List DailyRow)
    (i : WeeklyIntent) :
    (answerWeeklyCompare daily i = (noWeeklyDataText, none) ↔
      (weeklyFilter daily i.stateA i.year i.isoWeek = [] ∧
        weeklyFilter daily i.stateB i.year i.isoWeek = [])) ∧
    (weeklyFilter daily i.stateA i.year i.isoWeek = [] →
      weeklyFilter daily i.stateB i.year i.isoWeek ≠ [] →
      (answerWeeklyCompare daily i).2 = some
        [⟨i.stateA, 0, i.year, i.isoWeek⟩,
          ⟨i.stateB,
            firstTotal (queryWeeklyPrecipByState daily i.stateB i.year i.isoWeek),
            i.year, i.isoWeek⟩]) ∧
    (weeklyFilter daily i.stateA i.year i.isoWeek ≠ [] →
      weeklyFilter daily i.stateB i.year i.isoWeek = [] →
      (answerWeeklyCompare daily i).2 = some
        [⟨i.stateA,
            firstTotal (queryWeeklyPrecipByState daily i.stateA i.year i.isoWeek),
            i.year, i.isoWeek⟩,
          ⟨i.stateB, 0, i.year, i.isoWeek⟩]) := by
  refine ⟨⟨?_, ?_⟩, ?_, ?_⟩
  · intro h
    by_cases hc :
        ((queryWeeklyPrecipByState daily i.stateA i.year i.isoWeek).isEmpty &&
          (queryWeeklyPrecipByState daily i.stateB i.year i.isoWeek).isEmpty) = true
    · rw [Bool.and_eq_true, List.isEmpty_iff, List.isEmpty_iff] at hc
      exact ⟨(queryWeekly_eq_nil_iff daily i.stateA i.year i.isoWeek).mp hc.1,
        (queryWeekly_eq_nil_iff daily i.stateB i.year i.isoWeek).mp hc.2⟩
    · exfalso
      rw [answerWeeklyCompare_not_both_empty daily i hc] at h
      exact Option.noConfusion (congrArg Prod.snd h)
  · rintro ⟨h1, h2⟩
    exact answerWeeklyCompare_both_empty daily i
      ((queryWeekly_eq_nil_iff daily i.stateA i.year i.isoWeek).mpr h1)
      ((queryWeekly_eq_nil_iff daily i.stateB i.year i.isoWeek).mpr h2)
  · intro h1 h2
    have hqA := (queryWeekly_eq_nil_iff daily i.stateA i.year i.isoWeek).mpr h1
    have hqB : queryWeeklyPrecipByState daily i.stateB i.year i.isoWeek ≠ [] :=
      fun hq => h2 ((queryWeekly_eq_nil_iff daily i.stateB i.year i.isoWeek).mp hq)
    have hc :
        ((queryWeeklyPrecipByState daily i.stateA i.year i.isoWeek).isEmpty &&
          (queryWeeklyPrecipByState daily i.stateB i.year i.isoWeek).isEmpty) ≠ true := by
      intro hcc
      rw [Bool.and_eq_true, List.isEmpty_iff, List.isEmpty_iff] at hcc
      exact hqB hcc.2
    rw [answerWeeklyCompare_not_both_empty daily i hc, hqA]
    rfl
  · intro h1 h2
    have hqB := (queryWeekly_eq_nil_iff daily i.stateB i.year i.isoWeek).mpr h2
    have hqA : queryWeeklyPrecipByState daily i.stateA i.year i.isoWeek ≠ [] :=
      fun hq => h1 ((queryWeekly_eq_nil_iff daily i.stateA i.year i.isoWeek).mp hq)
    have hc :
        ((queryWeeklyPrecipByState daily i.stateA i.year i.isoWeek).isEmpty &&
          (queryWeeklyPrecipByState daily i.stateB i.year i.isoWeek).isEmpty) ≠ true := by
      intro hcc
      rw [Bool.and_eq_true, List.isEmpty_iff, List.isEmpty_iff] at hcc
      exact hqA hcc.1
    rw [answerWeeklyCompare_not_both_empty daily i hc, hqB]
    rfl

/-- Witness for C10: with one daily row for Goa only, asking about Goa and
Pune returns a table whose Pune entry has total 0.0. -/
theorem weekly_no_data_only_when_both_empty_witness :
    weeklyFilter [⟨2025, 11, 2, "Goa", "D1", 5⟩] "Goa" 2025 2 ≠ [] ∧
    weeklyFilter [⟨2025, 11, 2, "Goa", "D1", 5⟩] "Pune" 2025 2 = [] ∧
    (answerWeeklyCompare [⟨2025, 11, 2, "Goa", "D1", 5⟩]
        ⟨"Goa", "Pune", 2, some 11, 2025⟩).2 =
      some
        [⟨"Goa",
            firstTotal (queryWeeklyPrecipByState [⟨2025, 11, 2, "Goa", "D1", 5⟩]
              "Goa" 2025 2),
            2025, 2⟩,
          ⟨"Pune", 0, 2025, 2⟩] := by
  refine ⟨by decide, by decide, ?_⟩
  exact (weekly_no_data_only_when_both_empty [⟨2025, 11, 2, "Goa", "D1", 5⟩]
    ⟨"Goa", "Pune", 2, some 11, 2025⟩).2.2 (by decide) (by decide)
